import Mathlib

/-!
Verification of the data cleaning / reshaping / filtering pipeline of
`src/main.py` (functions `clean_and_transform`, `reshape_data`,
`filter_data`) against its natural-language specification.

The pandas dataframes are shallowly embedded as a `DF` structure: a list
of column names plus a list of rows, each row a list of `Cell` values
aligned with the columns.  Cells are non-null scalar values (strings,
integers, parsed dates); the embedding does not model pandas NaN cells.
Exceptions raised by pandas (`KeyError` on a missing column, a
`ValueError` from `pd.to_datetime`) are embedded as `Except Err`
results.
-/

set_option linter.unusedVariables false

namespace App

/-- A scalar cell of a dataframe: a string, a non-negative integer, or a
parsed calendar date `(year, month, day)`.  These are the value kinds the
pipeline of `src/main.py` actually stores in cells. -/
inductive Cell where
  | str : String → Cell
  | nat : Nat → Cell
  | date : Nat → Nat → Nat → Cell
deriving DecidableEq, Repr

instance : Inhabited Cell := ⟨Cell.nat 0⟩

/-- Label used when a cell value becomes a column name (pandas uses the
pivot values themselves as column labels). -/
def Cell.toLabel : Cell → String
  | .str s => s
  | .nat n => toString n
  | .date y m d => toString d ++ "-" ++ toString m ++ "-" ++ toString y

/-- Lexicographic comparison of character lists by code point. -/
def charsLe : List Char → List Char → Bool
  | [], _ => true
  | _ :: _, [] => false
  | a :: as, b :: bs =>
    if a.toNat < b.toNat then true
    else if b.toNat < a.toNat then false
    else charsLe as bs

/-- Total comparison on cells, used only to give the pivot table the
deterministic sorted row/column order that `pandas.pivot_table` produces. -/
def Cell.le : Cell → Cell → Bool
  | .nat a, .nat b => a ≤ b
  | .str a, .str b => charsLe a.toList b.toList
  | .date y m d, .date y' m' d' =>
      if y ≠ y' then y ≤ y' else if m ≠ m' then m ≤ m' else d ≤ d'
  | .nat _, _ => true
  | .str _, .nat _ => false
  | .str _, .date _ _ _ => true
  | .date _ _ _, _ => false

/-- A dataframe: ordered column names and rows of cells aligned with them. -/
structure DF where
  cols : List String
  rows : List (List Cell)
deriving DecidableEq, Repr

/-- The errors the pipeline can raise: pandas `KeyError` for a missing
column, and the `pd.to_datetime` failure on an unparseable date. -/
inductive Err where
  | missingColumn : String → Err
  | dateParse : String → Err
deriving DecidableEq, Repr

instance {ε α : Type} [DecidableEq ε] [DecidableEq α] :
    DecidableEq (Except ε α) := fun x y =>
  match x, y with
  | .ok a, .ok b =>
      if h : a = b then .isTrue (by rw [h]) else .isFalse (by simp [h])
  | .error a, .error b =>
      if h : a = b then .isTrue (by rw [h]) else .isFalse (by simp [h])
  | .ok _, .error _ => .isFalse (by simp)
  | .error _, .ok _ => .isFalse (by simp)

/-- Cell of a row at a column position (total, with a default). -/
def cellAt (r : List Cell) (i : Nat) : Cell := r.getD i default

/-- Position of a named column, `none` when absent. -/
def colIdx (df : DF) (c : String) : Option Nat := df.cols.findIdx? (· == c)

/-- The anonymized-name column shared by `USER_LOG` and `ACTIVITY_LOG`. -/
def anonCol : String := "User Full Name *Anonymized"

/-- `df.rename(columns={old: new})`: renames matching column labels and
silently does nothing when `old` is absent (pandas default
`errors="ignore"`). -/
def renameCol (df : DF) (old new : String) : DF :=
  { df with cols := df.cols.map (fun c => if c = old then new else c) }

/-- Insertion step of a stable insertion sort. -/
def insertLe {α : Type} (le : α → α → Bool) (a : α) : List α → List α
  | [] => [a]
  | b :: l => if le a b then a :: b :: l else b :: insertLe le a l

/-- Stable insertion sort (kernel-computable stand-in for the sorted
order `pandas.pivot_table` gives its index and columns). -/
def sortLe {α : Type} (le : α → α → Bool) : List α → List α
  | [] => []
  | a :: l => insertLe le a (sortLe le l)

/-- `pd.merge(l, r, on=key)` (inner join).  Raises `KeyError` when the
key column is absent from either frame; otherwise the result has the
left columns followed by the right columns minus the key, clashing
non-key labels suffixed `_x`/`_y`, and one output row per pair of rows
agreeing on the key, left-frame order preserved. -/
def merge (l r : DF) (key : String) : Except Err DF :=
  match colIdx l key, colIdx r key with
  | none, _ => .error (.missingColumn key)
  | _, none => .error (.missingColumn key)
  | some li, some ri =>
    let lcols := l.cols.map (fun c =>
      if c != key && r.cols.contains c then c ++ "_x" else c)
    let rcols := (r.cols.eraseIdx ri).map (fun c =>
      if c != key && l.cols.contains c then c ++ "_y" else c)
    .ok { cols := lcols ++ rcols,
          rows := l.rows.flatMap (fun ur =>
            ((r.rows.filter (fun ar => cellAt ar ri == cellAt ur li)).map
              (fun ar => ur ++ ar.eraseIdx ri))) }

/-- The activity-row predicate of `clean_and_transform`:
`~activity_log['Component'].isin(['System', 'Folder'])`. -/
def keepComponent (ci : Nat) (r : List Cell) : Bool :=
  !(cellAt r ci == .str "System" || cellAt r ci == .str "Folder")

/-- `clean_and_transform(user_log, activity_log, component_codes)` of
`src/main.py`: drop activity rows whose `Component` is `System` or
`Folder`, rename the anonymized-name column of both tables to `User_ID`,
and inner-join on `User_ID`.  `component_codes` is accepted but unused,
exactly as in the source. -/
def clean_and_transform (user_log activity_log component_codes : DF) :
    Except Err DF :=
  match colIdx activity_log "Component" with
  | none => .error (.missingColumn "Component")
  | some ci =>
    let activity : DF :=
      { activity_log with rows := activity_log.rows.filter (keepComponent ci) }
    let u := renameCol user_log anonCol "User_ID"
    let a := renameCol activity anonCol "User_ID"
    merge u a "User_ID"

/-- Days in a calendar month, Gregorian leap rule. -/
def daysInMonth (y m : Nat) : Nat :=
  if m = 2 then
    if y % 4 = 0 && (y % 100 != 0 || y % 400 = 0) then 29 else 28
  else if m = 4 || m = 6 || m = 9 || m = 11 then 30
  else 31

/-- Validity of a `(year, month, day)` triple as a calendar date. -/
def validDate (y m d : Nat) : Bool :=
  1 ≤ m && m ≤ 12 && 1 ≤ d && d ≤ daysInMonth y m

/-- Split a character list on `'-'` separators. -/
def splitDash (acc : List Char) : List Char → List (List Char)
  | [] => [acc.reverse]
  | c :: cs =>
    if c = '-' then acc.reverse :: splitDash [] cs
    else splitDash (c :: acc) cs

/-- Decimal value of a digit list, `none` on a non-digit. -/
def digitsVal (acc : Nat) : List Char → Option Nat
  | [] => some acc
  | c :: cs => if c.isDigit then digitsVal (acc * 10 + (c.toNat - 48)) cs else none

/-- Decimal value of a non-empty digit list. -/
def digitsToNat (cs : List Char) : Option Nat :=
  match cs with
  | [] => none
  | _ => digitsVal 0 cs

/-- `pd.to_datetime(s, dayfirst=True)` for a `D-M-Y`-separated textual
date: prefer the day-first reading, fall back to the month-first reading
when day-first is not a valid calendar date (`dayfirst` is a hint, not a
strict format), and fail when neither reading is valid.  Returns
`(year, month, day)`. -/
def parseDate (s : String) : Option (Nat × Nat × Nat) :=
  match splitDash [] s.toList with
  | [ds, ms, ys] =>
    match digitsToNat ds, digitsToNat ms, digitsToNat ys with
    | some d, some m, some y =>
      if validDate y m d then some (y, m, d)
      else if validDate y d m then some (y, d, m)
      else none
    | _, _, _ => none
  | _ => none

/-- Date value of a cell: an already-parsed date passes through
(`pd.to_datetime` is the identity on datetimes), a string is parsed
day-first, and any other cell kind fails. -/
def parseDateCell : Cell → Option (Nat × Nat × Nat)
  | .date y m d => some (y, m, d)
  | .str s => parseDate s
  | _ => none

/-- Calendar month (1–12) a cell's date parses to, `0` when it does not
parse; this is the `.dt.month` of `reshape_data`, independent of year. -/
def monthKey (c : Cell) : Nat :=
  match parseDateCell c with
  | some (_, m, _) => m
  | none => 0

/-- Element step of `pd.to_datetime` over the `Date` column: replace the
cell at `di` by its parsed date or fail with `DateParseError`. -/
def parseRow (di : Nat) (r : List Cell) : Except Err (List Cell) :=
  match parseDateCell (cellAt r di) with
  | some (y, m, d) => .ok (r.set di (.date y m d))
  | none => .error (.dateParse (Cell.toLabel (cellAt r di)))

/-- `pd.to_datetime` over all rows: fails on the first unparseable date,
no row is dropped and no date coerced. -/
def parseRows (di : Nat) : List (List Cell) → Except Err (List (List Cell))
  | [] => .ok []
  | r :: rest =>
    match parseRow di r with
    | .error e => .error e
    | .ok r' =>
      match parseRows di rest with
      | .error e => .error e
      | .ok rs => .ok (r' :: rs)

/-- Order in which `pivot_table` sorts its `(User_ID, Month)` index. -/
def pairLe (p q : Cell × Cell) : Bool :=
  if p.1 == q.1 then Cell.le p.2 q.2 else Cell.le p.1 q.1

/-- The `pivot_table(index=['User_ID','Month'], columns='Component',
values='Action', aggfunc='count').fillna(0).reset_index()` step: one row
per distinct `(User_ID, Month)` pair, one column per distinct
`Component` value, cell = count of rows of that pair carrying that
component (every cell is non-null in this embedding, so counting
non-null `Action` values is counting rows); absent combinations are 0. -/
def pivotStage (rows : List (List Cell)) (ui ci mi : Nat) : DF :=
  let pairs := sortLe pairLe ((rows.map (fun r => (cellAt r ui, cellAt r mi))).dedup)
  let comps := sortLe Cell.le ((rows.map (fun r => cellAt r ci)).dedup)
  { cols := ["User_ID", "Month"] ++ comps.map Cell.toLabel,
    rows := pairs.map (fun p =>
      [p.1, p.2] ++ comps.map (fun c =>
        Cell.nat (rows.countP (fun r =>
          cellAt r ui == p.1 && cellAt r mi == p.2 && cellAt r ci == c)))) }

/-- `reshape_data(merged_data)` of `src/main.py`: parse the `Date`
column day-first (failing the whole operation on the first bad value),
derive `Month` as the calendar month of the parsed date, and pivot to
one row per `(User_ID, Month)` with per-`Component` counts of `Action`.
Missing columns raise `KeyError` as in pandas. -/
def reshape_data (merged_data : DF) : Except Err DF :=
  match colIdx merged_data "Date" with
  | none => .error (.missingColumn "Date")
  | some di =>
    match parseRows di merged_data.rows with
    | .error e => .error e
    | .ok rows1 =>
      let withMonth : DF :=
        { cols := merged_data.cols ++ ["Month"],
          rows := rows1.map (fun r => r ++ [Cell.nat (monthKey (cellAt r di))]) }
      match colIdx withMonth "User_ID", colIdx withMonth "Component",
            colIdx withMonth "Action", colIdx withMonth "Month" with
      | some ui, some ci, some _ai, some mi =>
          .ok (pivotStage withMonth.rows ui ci mi)
      | none, _, _, _ => .error (.missingColumn "User_ID")
      | _, none, _, _ => .error (.missingColumn "Component")
      | _, _, none, _ => .error (.missingColumn "Action")
      | _, _, _, none => .error (.missingColumn "Month")

/-- Python truthiness of an optional list argument: `None` and `[]` are
both falsy, so an absent or empty predicate applies no restriction. -/
def truthyList {α : Type} : Option (List α) → Bool
  | none => false
  | some l => !l.isEmpty

/-- `filter_data(data, user_ids, components, date_range)` of
`src/main.py`: restrict rows to the given `User_ID`s, then restrict the
columns to `User_ID`, `Month` and the named components (unknown names
silently ignored), then keep rows whose `Date` lies in the closed range.
The `User_ID` and `Date` stages index a named column and so raise
`KeyError` when it is absent; a supplied `date_range` tuple is truthy in
Python even when its endpoints are `None`, so it is modelled as a
present pair. -/
def filter_data (data : DF) (user_ids : Option (List Cell))
    (components : Option (List String)) (date_range : Option (Cell × Cell)) :
    Except Err DF :=
  let step1 : Except Err DF :=
    if truthyList user_ids then
      match colIdx data "User_ID" with
      | none => .error (.missingColumn "User_ID")
      | some ui =>
        .ok { data with rows := data.rows.filter (fun r =>
                (user_ids.getD []).contains (cellAt r ui)) }
    else .ok data
  match step1 with
  | .error e => .error e
  | .ok d1 =>
    let d2 : DF :=
      if truthyList components then
        let comps := components.getD []
        let idxs := (List.range d1.cols.length).filter (fun i =>
          comps.contains (d1.cols.getD i "") ||
          ["User_ID", "Month"].contains (d1.cols.getD i ""))
        { cols := idxs.map (fun i => d1.cols.getD i ""),
          rows := d1.rows.map (fun r => idxs.map (fun i => cellAt r i)) }
      else d1
    if date_range.isSome then
      match colIdx d2 "Date" with
      | none => .error (.missingColumn "Date")
      | some di =>
        let s := (date_range.getD (default, default)).1
        let e := (date_range.getD (default, default)).2
        .ok { d2 with rows := d2.rows.filter (fun r =>
                Cell.le s (cellAt r di) && Cell.le (cellAt r di) e) }
    else .ok d2

/-- Numeric value of a count cell. -/
def cellNat : Cell → Nat
  | .nat n => n
  | _ => 0

/-- Total version of the per-row date parse: the parsed row when the
date parses, the row unchanged otherwise (only used to describe the
successful branch of `parseRows`). -/
def parsedRow (di : Nat) (r : List Cell) : List Cell :=
  match parseDateCell (cellAt r di) with
  | some (y, m, d) => r.set di (.date y m d)
  | none => r

/-- A merged row as it enters the pivot: date parsed and the derived
`Month` cell appended. -/
def withMonthRow (di : Nat) (r : List Cell) : List Cell :=
  parsedRow di r ++ [Cell.nat (monthKey (cellAt (parsedRow di r) di))]

/-- State of the caller's `user_log` after `clean_and_transform`
returns: `user_log.rename(columns=..., inplace=True)` mutates the
argument, renaming its anonymized-name column in place. -/
def userLogAfter (user_log : DF) : DF := renameCol user_log anonCol "User_ID"

/-- State of the caller's `activity_log` after `clean_and_transform`
returns: the function rebinds its local name to a filtered `.copy()`
before any in-place operation, so the argument is untouched. -/
def activityLogAfter (activity_log : DF) : DF := activity_log

/-- `USER_LOG` of the concrete scenario: users 1 and 2. -/
def sampleUserLog : DF :=
  { cols := [anonCol], rows := [[.nat 1], [.nat 2]] }

/-- `ACTIVITY_LOG` of the concrete scenario: 3 `Quiz` and 2 `System`
actions for user 1 and 1 `Quiz` action for user 2, all in month 3. -/
def sampleActivityLog : DF :=
  { cols := [anonCol, "Component", "Action", "Date"],
    rows := [
      [.nat 1, .str "Quiz", .str "Attempt", .str "05-03-2024"],
      [.nat 1, .str "Quiz", .str "Attempt", .str "06-03-2024"],
      [.nat 1, .str "System", .str "Login", .str "06-03-2024"],
      [.nat 1, .str "Quiz", .str "Submit", .str "07-03-2024"],
      [.nat 1, .str "System", .str "Logout", .str "07-03-2024"],
      [.nat 2, .str "Quiz", .str "Attempt", .str "09-03-2024"]] }

/-- A `COMPONENT_CODES` lookup table (accepted, unused by the core). -/
def sampleComponentCodes : DF :=
  { cols := ["Component", "Code"], rows := [[.str "Quiz", .str "QZ"]] }

/-- The merged record set the concrete scenario produces: the four
qualifying activity rows, joined to their users. -/
def sampleMerged : DF :=
  { cols := ["User_ID", "Component", "Action", "Date"],
    rows := [
      [.nat 1, .str "Quiz", .str "Attempt", .str "05-03-2024"],
      [.nat 1, .str "Quiz", .str "Attempt", .str "06-03-2024"],
      [.nat 1, .str "Quiz", .str "Submit", .str "07-03-2024"],
      [.nat 2, .str "Quiz", .str "Attempt", .str "09-03-2024"]] }

/-- The reshaped matrix of the concrete scenario. -/
def samplePivot : DF :=
  { cols := ["User_ID", "Month", "Quiz"],
    rows := [[.nat 1, .nat 3, .nat 3], [.nat 2, .nat 3, .nat 1]] }

/-- A user table that carries a `User_ID` column directly and lacks the
anonymized-name column. -/
def userLogPreId : DF :=
  { cols := ["User_ID"], rows := [[.nat 1]] }

/-- A user table without the anonymized-name column and without any
`User_ID` column. -/
def userLogNoKey : DF :=
  { cols := ["Name"], rows := [[.str "a"]] }

/-- A user table in which `UserID` 1 appears twice. -/
def dupUserLog : DF :=
  { cols := [anonCol], rows := [[.nat 1], [.nat 1]] }

/-- A merged record set whose single row has the unparseable day-first
date `31-02-2024`. -/
def badDateMerged : DF :=
  { cols := ["User_ID", "Component", "Action", "Date"],
    rows := [[.nat 1, .str "Quiz", .str "Attempt", .str "31-02-2024"]] }

/-- A user table in which `UserID` 1 appears twice (k = 2). -/
def dupActivityLog : DF :=
  { cols := [anonCol, "Component", "Action", "Date"],
    rows := [[.nat 1, .str "Quiz", .str "Attempt", .str "05-03-2024"]] }

/-- The merged record set of the duplicated-user scenario: the single
qualifying activity row appears once per duplicate user row. -/
def dupMerged : DF :=
  { cols := ["User_ID", "Component", "Action", "Date"],
    rows := [
      [.nat 1, .str "Quiz", .str "Attempt", .str "05-03-2024"],
      [.nat 1, .str "Quiz", .str "Attempt", .str "05-03-2024"]] }

/-- The conclusion of the C1 theorem, as a predicate on the merged
input and the reshaped output: the reshaped rows are exactly one per
distinct `(UserID, Month)` pair of the merged set, every component cell
is a natural-number count, and each row's component cells sum to the
number of merged (qualifying activity) rows of that pair. -/
def reshapeRowSumSpec (merged piv : DF) : Prop :=
  (piv.rows.map (fun r => (cellAt r 0, cellAt r 1))).Nodup
  ∧ (piv.rows.map (fun r => (cellAt r 0, cellAt r 1))).Perm
      ((merged.rows.map
        (fun q => (cellAt q 0, Cell.nat (monthKey (cellAt q 3))))).dedup)
  ∧ (∀ r ∈ piv.rows, ∀ cl ∈ r.drop 2, ∃ n, cl = Cell.nat n)
  ∧ (∀ r ∈ piv.rows, ((r.drop 2).map cellNat).sum
      = merged.rows.countP (fun q =>
          cellAt q 0 == cellAt r 0
          && Cell.nat (monthKey (cellAt q 3)) == cellAt r 1))

/-- The multiplicity property of C10 as a predicate: with `uid`
appearing `k` times in the user table, every qualifying activity row of
that user appears `k` times in the Transformer output, and each of that
user's component-count cells in the reshaped matrix is `k` times the
number of matching qualifying activity rows (same user, month and
component). -/
def multiplicitySpec (a merged : DF) (uid : Cell) (k : Nat) : Prop :=
  (∀ ar ∈ a.rows, keepComponent 1 ar = true → cellAt ar 0 = uid →
     merged.rows.count ar = k * a.rows.count ar)
  ∧ ∀ piv, reshape_data merged = .ok piv →
      ∀ r ∈ piv.rows, cellAt r 0 = uid →
      ∀ j, j + 2 < piv.cols.length →
        ∃ compCell, piv.cols.getD (j + 2) "" = compCell.toLabel
          ∧ cellAt r (j + 2) = Cell.nat (k * a.rows.countP (fun ar =>
              keepComponent 1 ar && (cellAt ar 0 == uid)
              && (Cell.nat (monthKey (cellAt ar 3)) == cellAt r 1)
              && (cellAt ar 1 == compCell)))

lemma insertLe_perm {α : Type} (le : α → α → Bool) (a : α) (l : List α) :
    (insertLe le a l).Perm (a :: l) := by
  induction l with
  | nil => simp [insertLe]
  | cons b l ih =>
    simp only [insertLe]
    split
    · exact .refl _
    · exact (ih.cons b).trans (List.Perm.swap a b l)

lemma sortLe_perm {α : Type} (le : α → α → Bool) (l : List α) :
    (sortLe le l).Perm l := by
  induction l with
  | nil => simp [sortLe]
  | cons a l ih => exact (insertLe_perm le a _).trans (ih.cons a)

lemma parseRows_ok (di : Nat) (rows rows1 : List (List Cell))
    (h : parseRows di rows = .ok rows1) :
    rows1 = rows.map (parsedRow di) := by
  induction rows generalizing rows1 with
  | nil =>
    simp only [parseRows, Except.ok.injEq] at h
    simp [← h]
  | cons r rest ih =>
    simp only [parseRows] at h
    cases hc : parseDateCell (cellAt r di) with
    | none => simp [parseRow, hc] at h
    | some ymd =>
      obtain ⟨y, m, d⟩ := ymd
      rw [parseRow, hc] at h
      cases hrest : parseRows di rest with
      | error e => rw [hrest] at h; exact absurd h (by simp)
      | ok rs =>
        rw [hrest] at h
        simp only [Except.ok.injEq] at h
        rw [← h, List.map_cons, ih rs hrest, parsedRow, hc]

lemma parseRows_error_of_bad (di : Nat) (rows : List (List Cell))
    (hbad : ∃ r ∈ rows, parseDateCell (cellAt r di) = none) :
    ∃ s, parseRows di rows = .error (.dateParse s) := by
  induction rows with
  | nil => simp at hbad
  | cons r rest ih =>
    by_cases hr : parseDateCell (cellAt r di) = none
    · exact ⟨Cell.toLabel (cellAt r di), by simp [parseRows, parseRow, hr]⟩
    · obtain ⟨q, hq, hqbad⟩ := hbad
      have hq' : q ∈ rest := by
        cases hq with
        | head => exact absurd hqbad hr
        | tail _ h => exact h
      obtain ⟨s, hs⟩ := ih ⟨q, hq', hqbad⟩
      obtain ⟨⟨y, m, d⟩, hc⟩ := Option.ne_none_iff_exists'.mp hr
      exact ⟨s, by simp [parseRows, parseRow, hc, hs]⟩

lemma sum_map_add {β : Type} (cs : List β) (g h : β → Nat) :
    (cs.map (fun c => g c + h c)).sum = (cs.map g).sum + (cs.map h).sum := by
  induction cs with
  | nil => simp
  | cons c cs ih => simp only [List.map_cons, List.sum_cons, ih]; omega

lemma sum_if_not_mem {β : Type} [DecidableEq β] (cs : List β) (b : β)
    (h : b ∉ cs) :
    (cs.map (fun c => if b = c then 1 else 0)).sum = 0 := by
  induction cs with
  | nil => simp
  | cons c cs ih =>
    have hbc : b ≠ c := fun e => h (e ▸ List.mem_cons_self c cs)
    have h' : b ∉ cs := fun e => h (List.mem_cons_of_mem c e)
    simp [hbc, ih h']

lemma sum_if_mem_one {β : Type} [DecidableEq β] (cs : List β) (b : β)
    (hnd : cs.Nodup) (hmem : b ∈ cs) :
    (cs.map (fun c => if b = c then 1 else 0)).sum = 1 := by
  induction cs with
  | nil => simp at hmem
  | cons c cs ih =>
    rw [List.nodup_cons] at hnd
    by_cases hbc : b = c
    · subst hbc
      simp [sum_if_not_mem cs b hnd.1]
    · have hb : b ∈ cs := by
        cases hmem with
        | head => exact absurd rfl hbc
        | tail _ h => exact h
      simp [hbc, ih hnd.2 hb]

lemma countP_partition {α β : Type} [DecidableEq β] (l : List α)
    (p : α → Bool) (f : α → β) (cs : List β) (hnd : cs.Nodup)
    (hcov : ∀ x ∈ l, f x ∈ cs) :
    (cs.map (fun c => l.countP (fun x => p x && (f x == c)))).sum
      = l.countP p := by
  induction l with
  | nil => simp [List.countP_nil]
  | cons x l ih =>
    have hcov' : ∀ y ∈ l, f y ∈ cs := fun y hy => hcov y (List.mem_cons_of_mem x hy)
    rw [List.countP_cons]
    have step : (cs.map (fun c => (x :: l).countP (fun y => p y && (f y == c)))).sum
        = (cs.map (fun c => l.countP (fun y => p y && (f y == c)))).sum
          + (cs.map (fun c => if (p x && (f x == c)) = true then 1 else 0)).sum := by
      simp only [List.countP_cons]
      exact sum_map_add cs _ _
    rw [step, ih hcov']
    congr 1
    by_cases hp : p x = true
    · simp only [hp, Bool.true_and, beq_iff_eq, if_true]
      exact sum_if_mem_one cs (f x) hnd (hcov x (List.mem_cons_self x l))
    · have hp' : p x = false := by revert hp; cases p x <;> simp
      simp [hp']

lemma length_eq_one {α : Type} (r : List α) (h : r.length = 1) :
    ∃ a, r = [a] := by
  cases r with
  | nil => simp at h
  | cons a t =>
    cases t with
    | nil => exact ⟨a, rfl⟩
    | cons b t' => simp at h

lemma length_eq_four {α : Type} (r : List α) (h : r.length = 4) :
    ∃ a b c d, r = [a, b, c, d] := by
  cases r with
  | nil => simp at h
  | cons a t =>
    cases t with
    | nil => simp at h
    | cons b t =>
      cases t with
      | nil => simp at h
      | cons c t =>
        cases t with
        | nil => simp at h
        | cons d t =>
          cases t with
          | nil => exact ⟨a, b, c, d, rfl⟩
          | cons e t => simp at h

lemma clean_and_transform_eq (urows arows : List (List Cell)) (cc : DF) :
    clean_and_transform ⟨[anonCol], urows⟩
        ⟨[anonCol, "Component", "Action", "Date"], arows⟩ cc
      = .ok { cols := ["User_ID", "Component", "Action", "Date"],
              rows := urows.flatMap (fun ur =>
                (((arows.filter (keepComponent 1)).filter
                    (fun ar => cellAt ar 0 == cellAt ur 0)).map
                  (fun ar => ur ++ ar.eraseIdx 0))) } := rfl

lemma reshape_data_eq (rows : List (List Cell)) :
    reshape_data ⟨["User_ID", "Component", "Action", "Date"], rows⟩
      = match parseRows 3 rows with
        | .error e => .error e
        | .ok rows1 =>
            .ok (pivotStage
              (rows1.map (fun r => r ++ [Cell.nat (monthKey (cellAt r 3))]))
              0 1 4) := rfl

lemma colIdx_eq_none_of_not_mem (df : DF) (c : String) (h : c ∉ df.cols) :
    colIdx df c = none := by
  rw [colIdx, List.findIdx?_eq_none_iff]
  intro x hx
  simp only [beq_eq_false_iff_ne]
  exact fun e => h (e ▸ hx)

lemma mem_transform_rows (urows arows : List (List Cell)) (mr : List Cell)
    (hmr : mr ∈ urows.flatMap (fun ur =>
      (((arows.filter (keepComponent 1)).filter
          (fun ar => cellAt ar 0 == cellAt ur 0)).map
        (fun ar => ur ++ ar.eraseIdx 0)))) :
    ∃ ur ∈ urows, ∃ ar ∈ arows,
      keepComponent 1 ar = true ∧ cellAt ar 0 = cellAt ur 0
      ∧ mr = ur ++ ar.eraseIdx 0 := by
  rw [List.mem_flatMap] at hmr
  obtain ⟨ur, hur, hmem⟩ := hmr
  rw [List.mem_map] at hmem
  obtain ⟨ar, har, heq⟩ := hmem
  rw [List.mem_filter] at har
  obtain ⟨har1, hkey⟩ := har
  rw [List.mem_filter] at har1
  exact ⟨ur, hur, ar, har1.1, har1.2, eq_of_beq hkey, heq.symm⟩

/-- C3: no activity row whose `Component` is `System` or `Folder` ever
appears in the output of the Transformer: every merged row's
`Component` cell differs from both. -/
theorem C3_excluded_components_never_merged (u a c merged : DF)
    (hu : u.cols = [anonCol])
    (ha : a.cols = [anonCol, "Component", "Action", "Date"])
    (hul : ∀ r ∈ u.rows, r.length = 1)
    (hal : ∀ r ∈ a.rows, r.length = 4)
    (hok : clean_and_transform u a c = .ok merged) :
    ∀ mr ∈ merged.rows,
      cellAt mr 1 ≠ .str "System" ∧ cellAt mr 1 ≠ .str "Folder" := by
  obtain ⟨mcols, mrows⟩ := u
  obtain ⟨acols, arows⟩ := a
  simp only at hu ha hul hal
  subst hu
  subst ha
  rw [clean_and_transform_eq] at hok
  simp only [Except.ok.injEq] at hok
  subst hok
  intro mr hmr
  obtain ⟨ur, hur, ar, har, hkeep, hkey, hmr_eq⟩ :=
    mem_transform_rows mrows arows mr hmr
  obtain ⟨w, rfl⟩ := length_eq_one ur (hul ur hur)
  obtain ⟨x0, x1, x2, x3, rfl⟩ := length_eq_four ar (hal ar har)
  subst hmr_eq
  simp only [keepComponent, cellAt, List.getD_cons_succ, List.getD_cons_zero,
    Bool.not_eq_true', Bool.or_eq_false_iff, beq_eq_false_iff_ne] at hkeep
  simpa [cellAt, List.eraseIdx] using hkeep

theorem C3_witness :
    (∀ r ∈ sampleUserLog.rows, r.length = 1)
    ∧ (∀ r ∈ sampleActivityLog.rows, r.length = 4)
    ∧ ∀ mr ∈ sampleMerged.rows,
        cellAt mr 1 ≠ .str "System" ∧ cellAt mr 1 ≠ .str "Folder" :=
  ⟨by decide, by decide,
    C3_excluded_components_never_merged sampleUserLog sampleActivityLog
      sampleComponentCodes sampleMerged (by decide) (by decide) (by decide)
      (by decide) (by decide)⟩

/-- C4: inner-join semantics — every merged row's `UserID` comes from a
user row and from an activity row, so the Transformer's output contains
no row whose `UserID` is absent from either input table; unmatched rows
are dropped, not errored (the result is `.ok`). -/
theorem C4_inner_join_userids (u a c merged : DF)
    (hu : u.cols = [anonCol])
    (ha : a.cols = [anonCol, "Component", "Action", "Date"])
    (hul : ∀ r ∈ u.rows, r.length = 1)
    (hal : ∀ r ∈ a.rows, r.length = 4)
    (hok : clean_and_transform u a c = .ok merged) :
    ∀ mr ∈ merged.rows,
      (∃ ur ∈ u.rows, cellAt ur 0 = cellAt mr 0)
      ∧ (∃ ar ∈ a.rows, cellAt ar 0 = cellAt mr 0) := by
  obtain ⟨mcols, mrows⟩ := u
  obtain ⟨acols, arows⟩ := a
  simp only at hu ha hul hal
  subst hu
  subst ha
  rw [clean_and_transform_eq] at hok
  simp only [Except.ok.injEq] at hok
  subst hok
  intro mr hmr
  obtain ⟨ur, hur, ar, har, hkeep, hkey, hmr_eq⟩ :=
    mem_transform_rows mrows arows mr hmr
  obtain ⟨w, rfl⟩ := length_eq_one ur (hul ur hur)
  obtain ⟨x0, x1, x2, x3, rfl⟩ := length_eq_four ar (hal ar har)
  subst hmr_eq
  simp only [cellAt, List.getD_cons_zero] at hkey
  constructor
  · exact ⟨[w], hur, by simp [cellAt, List.eraseIdx]⟩
  · exact ⟨[x0, x1, x2, x3], har, by simp [cellAt, List.eraseIdx, hkey]⟩

theorem C4_witness :
    (∀ r ∈ sampleUserLog.rows, r.length = 1)
    ∧ (∀ r ∈ sampleActivityLog.rows, r.length = 4)
    ∧ ∀ mr ∈ sampleMerged.rows,
        (∃ ur ∈ sampleUserLog.rows, cellAt ur 0 = cellAt mr 0)
        ∧ (∃ ar ∈ sampleActivityLog.rows, cellAt ar 0 = cellAt mr 0) :=
  ⟨by decide, by decide,
    C4_inner_join_userids sampleUserLog sampleActivityLog
      sampleComponentCodes sampleMerged (by decide) (by decide) (by decide)
      (by decide) (by decide)⟩

/-- C2: on the concrete scenario — `USER_LOG` with users `{1,2}`,
`ACTIVITY_LOG` with 3 `Quiz` and 2 `System` actions for user 1 and 1
`Quiz` action for user 2, all in month 3 — `clean_and_transform` drops
exactly the 2 `System` rows, `reshape_data` yields the rows
`(1, 3, Quiz=3)` and `(2, 3, Quiz=1)` with no other component column,
and filtering with `components={"Quiz"}` returns exactly those two rows
with columns `User_ID, Month, Quiz`. -/
theorem C2_concrete_scenario :
    clean_and_transform sampleUserLog sampleActivityLog sampleComponentCodes
      = .ok sampleMerged
    ∧ reshape_data sampleMerged = .ok samplePivot
    ∧ filter_data samplePivot none (some ["Quiz"]) none = .ok samplePivot
    ∧ sampleMerged.rows.length + 2 = sampleActivityLog.rows.length
    ∧ samplePivot.rows
        = [[Cell.nat 1, Cell.nat 3, Cell.nat 3],
           [Cell.nat 2, Cell.nat 3, Cell.nat 1]]
    ∧ samplePivot.cols = ["User_ID", "Month", "Quiz"] :=
  ⟨by decide, by decide, by decide, by decide, by decide, by decide⟩

lemma withMonthRow_four (q0 q1 q2 q3 : Cell) :
    cellAt (withMonthRow 3 [q0, q1, q2, q3]) 0 = q0
    ∧ cellAt (withMonthRow 3 [q0, q1, q2, q3]) 1 = q1
    ∧ cellAt (withMonthRow 3 [q0, q1, q2, q3]) 4
        = Cell.nat (monthKey q3) := by
  have hq3 : cellAt [q0, q1, q2, q3] 3 = q3 := rfl
  simp only [withMonthRow, parsedRow, hq3]
  cases hc : parseDateCell q3 with
  | none => exact ⟨rfl, rfl, rfl⟩
  | some ymd =>
    obtain ⟨y, m, d⟩ := ymd
    refine ⟨rfl, rfl, ?_⟩
    have hm : monthKey q3 = m := by simp [monthKey, hc]
    show Cell.nat m = Cell.nat (monthKey q3)
    rw [hm]

/-- C1: for every merged record set (canonical schema), `reshape_data`
produces one row per distinct `(UserID, Month)` pair, every
component-count cell is a natural number (hence a non-negative
integer), and the component cells of each row sum to the number of
merged rows — i.e. of qualifying matched activity rows — for that
pair. -/
theorem C1_reshape_counts (merged piv : DF)
    (hc : merged.cols = ["User_ID", "Component", "Action", "Date"])
    (hlen : ∀ r ∈ merged.rows, r.length = 4)
    (hok : reshape_data merged = .ok piv) :
    reshapeRowSumSpec merged piv := by
  obtain ⟨mcols, mrows⟩ := merged
  simp only at hc hlen
  subst hc
  rw [reshape_data_eq] at hok
  cases hpr : parseRows 3 mrows with
  | error e => rw [hpr] at hok; exact absurd hok (by simp)
  | ok rows1 =>
    rw [hpr] at hok
    simp only [Except.ok.injEq] at hok
    have hrows1 : rows1 = mrows.map (parsedRow 3) := parseRows_ok 3 mrows rows1 hpr
    subst hrows1
    subst hok
    set ws := (mrows.map (parsedRow 3)).map
      (fun r => r ++ [Cell.nat (monthKey (cellAt r 3))]) with hws
    have hws' : ws = mrows.map (withMonthRow 3) := by
      rw [hws, List.map_map]; rfl
    have hpt : ∀ q ∈ mrows,
        cellAt (withMonthRow 3 q) 0 = cellAt q 0
        ∧ cellAt (withMonthRow 3 q) 1 = cellAt q 1
        ∧ cellAt (withMonthRow 3 q) 4 = Cell.nat (monthKey (cellAt q 3)) := by
      intro q hq
      obtain ⟨q0, q1, q2, q3, rfl⟩ := length_eq_four q (hlen q hq)
      exact withMonthRow_four q0 q1 q2 q3
    set prs := sortLe pairLe ((ws.map (fun r => (cellAt r 0, cellAt r 4))).dedup)
      with hprs
    set cmps := sortLe Cell.le ((ws.map (fun r => cellAt r 1)).dedup) with hcmps
    have hpivrows : (pivotStage ws 0 1 4).rows
        = prs.map (fun p => [p.1, p.2] ++ cmps.map (fun c =>
            Cell.nat (ws.countP (fun r =>
              cellAt r 0 == p.1 && cellAt r 4 == p.2 && cellAt r 1 == c)))) := rfl
    have hmap : (pivotStage ws 0 1 4).rows.map (fun r => (cellAt r 0, cellAt r 1))
        = prs := by
      rw [hpivrows, List.map_map]
      have : ∀ p : Cell × Cell,
          ((fun r => (cellAt r 0, cellAt r 1)) ∘ (fun p : Cell × Cell =>
            [p.1, p.2] ++ cmps.map (fun c =>
              Cell.nat (ws.countP (fun r =>
                cellAt r 0 == p.1 && cellAt r 4 == p.2 && cellAt r 1 == c))))) p
          = p := fun p => rfl
      rw [List.map_congr_left (fun p _ => this p)]
      simp
    have hwpairs : ws.map (fun r => (cellAt r 0, cellAt r 4))
        = mrows.map (fun q => (cellAt q 0, Cell.nat (monthKey (cellAt q 3)))) := by
      rw [hws', List.map_map]
      exact List.map_congr_left (fun q hq => by
        have h := hpt q hq
        simp [Function.comp, h.1, h.2.2])
    have hcmem : ∀ x ∈ ws, cellAt x 1 ∈ cmps := by
      intro x hx
      rw [hcmps, (sortLe_perm _ _).mem_iff, List.mem_dedup]
      exact List.mem_map_of_mem _ hx
    have hcnd : cmps.Nodup := by
      rw [hcmps]
      exact ((sortLe_perm _ _).nodup_iff).mpr (List.nodup_dedup _)
    refine ⟨?_, ?_, ?_, ?_⟩
    · rw [hmap, hprs]
      exact ((sortLe_perm _ _).nodup_iff).mpr (List.nodup_dedup _)
    · rw [hmap, hprs, ← hwpairs]
      exact sortLe_perm _ _
    · intro r hr
      rw [hpivrows] at hr
      obtain ⟨p, hp, rfl⟩ := List.mem_map.mp hr
      intro cl hcl
      simp only [List.cons_append, List.nil_append, List.drop_succ_cons,
        List.drop_zero] at hcl
      obtain ⟨cc, _, rfl⟩ := List.mem_map.mp hcl
      exact ⟨_, rfl⟩
    · intro r hr
      rw [hpivrows] at hr
      obtain ⟨p, hp, rfl⟩ := List.mem_map.mp hr
      have hcell0 : cellAt ([p.1, p.2] ++ cmps.map (fun c =>
          Cell.nat (ws.countP (fun r =>
            cellAt r 0 == p.1 && cellAt r 4 == p.2 && cellAt r 1 == c)))) 0
          = p.1 := rfl
      have hcell1 : cellAt ([p.1, p.2] ++ cmps.map (fun c =>
          Cell.nat (ws.countP (fun r =>
            cellAt r 0 == p.1 && cellAt r 4 == p.2 && cellAt r 1 == c)))) 1
          = p.2 := rfl
      rw [hcell0, hcell1]
      simp only [List.cons_append, List.nil_append, List.drop_succ_cons,
        List.drop_zero, List.map_map]
      have hstep1 : cmps.map ((cellNat ∘ fun c =>
          Cell.nat (ws.countP (fun r =>
            cellAt r 0 == p.1 && cellAt r 4 == p.2 && cellAt r 1 == c))))
          = cmps.map (fun c => ws.countP (fun r =>
              (cellAt r 0 == p.1 && cellAt r 4 == p.2) && (cellAt r 1 == c))) := rfl
      rw [hstep1,
        countP_partition ws (fun r => cellAt r 0 == p.1 && cellAt r 4 == p.2)
          (fun r => cellAt r 1) cmps hcnd hcmem]
      rw [hws', List.countP_map]
      exact List.countP_congr (fun q hq => by
        have h := hpt q hq
        simp [Function.comp, h.1, h.2.2])

theorem C1_witness :
    sampleMerged.cols = ["User_ID", "Component", "Action", "Date"]
    ∧ (∀ r ∈ sampleMerged.rows, r.length = 4)
    ∧ reshape_data sampleMerged = .ok samplePivot
    ∧ reshapeRowSumSpec sampleMerged samplePivot :=
  ⟨by decide, by decide, by decide,
    C1_reshape_counts sampleMerged samplePivot (by decide) (by decide) (by decide)⟩

/-- C5: whenever the merged record set has a `Date` column containing at
least one value that does not parse as a day-first calendar date,
`reshape_data` fails the whole operation with a date-parse error — it
returns no matrix, so no date is coerced and no row silently dropped. -/
theorem C5_unparseable_date_fails (merged : DF) (di : Nat)
    (hdi : colIdx merged "Date" = some di)
    (hbad : ∃ r ∈ merged.rows, parseDateCell (cellAt r di) = none) :
    ∃ s, reshape_data merged = .error (.dateParse s) := by
  obtain ⟨s, hs⟩ := parseRows_error_of_bad di merged.rows hbad
  exact ⟨s, by simp [reshape_data, hdi, hs]⟩

theorem C5_witness :
    colIdx badDateMerged "Date" = some 3
    ∧ (∃ r ∈ badDateMerged.rows, parseDateCell (cellAt r 3) = none)
    ∧ ∃ s, reshape_data badDateMerged = .error (.dateParse s) :=
  ⟨by decide, by decide,
    C5_unparseable_date_fails badDateMerged 3 (by decide) (by decide)⟩

/-- C6 counterexample: on a reshaped matrix (which has no `Date`
column), supplying a date range does NOT silently no-op: `filter_data`
raises the missing-column error for `Date` instead of returning a
result. -/
theorem C6_counterexample :
    "Date" ∉ samplePivot.cols
    ∧ filter_data samplePivot none none
        (some (Cell.date 2024 1 1, Cell.date 2024 12 31))
      = .error (.missingColumn "Date") :=
  ⟨by decide, by decide⟩

/-- C6 amended: for every matrix without a `Date` column, calling
`filter_data` with a date range fails with the missing-column error for
`Date` (the `KeyError` pandas raises); it does not silently skip the
date stage. -/
theorem C6_amended_missing_date_errors (data : DF) (range : Cell × Cell)
    (h : "Date" ∉ data.cols) :
    filter_data data none none (some range) = .error (.missingColumn "Date") := by
  have hidx : colIdx data "Date" = none := colIdx_eq_none_of_not_mem data "Date" h
  simp [filter_data, truthyList, hidx]

theorem C6_witness :
    "Date" ∉ samplePivot.cols
    ∧ filter_data samplePivot none none (some (Cell.nat 0, Cell.nat 99))
      = .error (.missingColumn "Date") :=
  ⟨by decide,
    C6_amended_missing_date_errors samplePivot (Cell.nat 0, Cell.nat 99) (by decide)⟩

/-- C7 counterexample: a user table lacking the anonymized-name column
but already carrying a `User_ID` column merges successfully — the
rename is a silent no-op (pandas `errors="ignore"`) and the join key is
present — so `clean_and_transform` returns a merged result instead of
failing. -/
theorem C7_counterexample :
    anonCol ∉ userLogPreId.cols
    ∧ clean_and_transform userLogPreId sampleActivityLog sampleComponentCodes
      = .ok { cols := ["User_ID", "Component", "Action", "Date"],
              rows := [
                [.nat 1, .str "Quiz", .str "Attempt", .str "05-03-2024"],
                [.nat 1, .str "Quiz", .str "Attempt", .str "06-03-2024"],
                [.nat 1, .str "Quiz", .str "Submit", .str "07-03-2024"]] } :=
  ⟨by decide, by decide⟩

/-- C7 amended: if some input table carries neither the anonymized-name
column nor a `User_ID` column (so the silent rename cannot produce the
join key), `clean_and_transform` fails with a missing-column error
rather than returning a merged result. -/
theorem C7_amended_missing_key_errors (u a c : DF)
    (h : (anonCol ∉ u.cols ∧ "User_ID" ∉ u.cols)
       ∨ (anonCol ∉ a.cols ∧ "User_ID" ∉ a.cols)) :
    ∃ col, clean_and_transform u a c = .error (.missingColumn col) := by
  have key : ∀ df : DF, anonCol ∉ df.cols → "User_ID" ∉ df.cols →
      colIdx (renameCol df anonCol "User_ID") "User_ID" = none := by
    intro df h1 h2
    rw [colIdx, List.findIdx?_eq_none_iff]
    intro x hx
    simp only [renameCol, List.mem_map] at hx
    obtain ⟨y, hy, hyx⟩ := hx
    have hyanon : y ≠ anonCol := fun e => h1 (e ▸ hy)
    rw [if_neg hyanon] at hyx
    subst hyx
    simp only [beq_eq_false_iff_ne]
    exact fun e => h2 (e ▸ hy)
  cases hC : colIdx a "Component" with
  | none => exact ⟨"Component", by simp [clean_and_transform, hC]⟩
  | some ci =>
    cases h with
    | inl hu =>
      have hl := key u hu.1 hu.2
      exact ⟨"User_ID", by simp [clean_and_transform, hC, merge, hl]⟩
    | inr ha =>
      have hr : colIdx (renameCol { a with rows := a.rows.filter (keepComponent ci) }
          anonCol "User_ID") "User_ID" = none := key _ ha.1 ha.2
      refine ⟨"User_ID", ?_⟩
      cases hl : colIdx (renameCol u anonCol "User_ID") "User_ID" with
      | none => simp [clean_and_transform, hC, merge, hl]
      | some li => simp [clean_and_transform, hC, merge, hl, hr]

theorem C7_witness :
    ((anonCol ∉ userLogNoKey.cols ∧ "User_ID" ∉ userLogNoKey.cols)
      ∨ (anonCol ∉ sampleActivityLog.cols ∧ "User_ID" ∉ sampleActivityLog.cols))
    ∧ ∃ col, clean_and_transform userLogNoKey sampleActivityLog sampleComponentCodes
        = .error (.missingColumn col) :=
  ⟨Or.inl ⟨by decide, by decide⟩,
    C7_amended_missing_key_errors userLogNoKey sampleActivityLog sampleComponentCodes
      (Or.inl ⟨by decide, by decide⟩)⟩

/-- C8: applying `filter_data` with no predicates at all (no user ids,
no components, no date range) returns the input matrix unchanged — the
no-op filter is the identity on row and column content. -/
theorem C8_noop_filter_identity (data : DF) :
    filter_data data none none none = .ok data := rfl

/-- C9 counterexample: the raw user table is NOT left unchanged —
`clean_and_transform` renames its anonymized-name column in place
(`inplace=True`), so after the call the caller's user table differs
from its original value. -/
theorem C9_counterexample : userLogAfter sampleUserLog ≠ sampleUserLog := by
  decide

/-- C9 amended: `clean_and_transform` leaves the activity-table argument
unchanged (it is rebound to a filtered copy before any in-place
operation) and leaves the user table's rows unchanged, but renames the
user table's anonymized-name column to `User_ID` in place. -/
theorem C9_amended_mutation (u a : DF) :
    activityLogAfter a = a
    ∧ (userLogAfter u).rows = u.rows
    ∧ (userLogAfter u).cols
        = u.cols.map (fun c => if c = anonCol then "User_ID" else c) :=
  ⟨rfl, rfl, rfl⟩

lemma getD_map_lt {α β : Type} (f : α → β) (l : List α) (j : Nat)
    (d : β) (d' : α) (hj : j < l.length) :
    (l.map f).getD j d = f (l.getD j d') := by
  induction l generalizing j with
  | nil => simp at hj
  | cons a l ih =>
    cases j with
    | zero => rfl
    | succ j =>
      simp only [List.map_cons, List.getD_cons_succ]
      exact ih j (Nat.lt_of_succ_lt_succ hj)

lemma countP_merge (urows arows : List (List Cell)) (uid : Cell)
    (hul : ∀ r ∈ urows, r.length = 1) (p : List Cell → Bool)
    (hp : ∀ ur ∈ urows, ∀ ar ∈ arows,
      p (ur ++ ar.eraseIdx 0) = true → cellAt ur 0 = uid) :
    (urows.flatMap (fun ur => ((arows.filter
        (fun ar => cellAt ar 0 == cellAt ur 0)).map
      (fun ar => ur ++ ar.eraseIdx 0)))).countP p
    = urows.countP (fun r => cellAt r 0 == uid)
      * arows.countP (fun ar =>
          p (uid :: ar.eraseIdx 0) && (cellAt ar 0 == uid)) := by
  induction urows with
  | nil => simp
  | cons ur rest ih =>
    have hul' : ∀ r ∈ rest, r.length = 1 :=
      fun r hr => hul r (List.mem_cons_of_mem ur hr)
    have hp' : ∀ u' ∈ rest, ∀ ar ∈ arows,
        p (u' ++ ar.eraseIdx 0) = true → cellAt u' 0 = uid :=
      fun u' hu' => hp u' (List.mem_cons_of_mem ur hu')
    rw [List.flatMap_cons, List.countP_append, ih hul' hp', List.countP_cons]
    obtain ⟨w, rfl⟩ := length_eq_one ur (hul ur (List.mem_cons_self ur rest))
    by_cases hw : w = uid
    · have hw2 : uid = w := hw.symm
      subst hw2
      have hhead : (((arows.filter
            (fun ar => cellAt ar 0 == cellAt [uid] 0)).map
          (fun ar => [uid] ++ ar.eraseIdx 0)).countP p)
          = arows.countP (fun ar =>
              p (uid :: ar.eraseIdx 0) && (cellAt ar 0 == uid)) := by
        rw [List.countP_map, List.countP_filter]
        rfl
      rw [hhead]
      have hself : (cellAt [uid] 0 == uid) = true := beq_self_eq_true uid
      rw [hself, if_pos rfl]
      ring
    · have hzero : (((arows.filter
            (fun ar => cellAt ar 0 == cellAt [w] 0)).map
          (fun ar => [w] ++ ar.eraseIdx 0)).countP p) = 0 := by
        rw [List.countP_eq_zero]
        intro x hx
        rw [List.mem_map] at hx
        obtain ⟨ar, har, rfl⟩ := hx
        rw [List.mem_filter] at har
        intro hpx
        exact hw (hp [w] (List.mem_cons_self _ _) ar har.1 hpx)
      rw [hzero]
      have hne : (cellAt [w] 0 == uid) = false := beq_eq_false_iff_ne.mpr hw
      rw [hne]
      simp

/-- C10: if a `UserID` appears `k` times in the user table, every
qualifying activity row of that user appears `k` times in the
Transformer's output, and each of that user's component counts in the
reshaped matrix is `k` times the number of matching qualifying activity
rows — per-activity-row counts only hold when user identifiers are
unique in the user table. -/
theorem C10_user_multiplicity (u a c merged : DF) (uid : Cell) (k : Nat)
    (hu : u.cols = [anonCol])
    (ha : a.cols = [anonCol, "Component", "Action", "Date"])
    (hul : ∀ r ∈ u.rows, r.length = 1)
    (hal : ∀ r ∈ a.rows, r.length = 4)
    (hk : u.rows.countP (fun r => cellAt r 0 == uid) = k)
    (hok : clean_and_transform u a c = .ok merged) :
    multiplicitySpec a merged uid k := by
  obtain ⟨ucols, urows⟩ := u
  obtain ⟨acols, arows⟩ := a
  simp only at hu ha hul hal hk
  subst hu
  subst ha
  rw [clean_and_transform_eq] at hok
  simp only [Except.ok.injEq] at hok
  subst hok
  constructor
  · -- every qualifying activity row of user `uid` appears k times
    intro ar har hkeep haruid
    obtain ⟨x0, x1, x2, x3, rfl⟩ := length_eq_four ar (hal ar har)
    have hx0 : uid = x0 := haruid.symm
    subst hx0
    rw [List.count_eq_countP, List.count_eq_countP]
    have hp1 : ∀ ur ∈ urows, ∀ ar' ∈ arows.filter (keepComponent 1),
        ((ur ++ ar'.eraseIdx 0) == [uid, x1, x2, x3]) = true →
        cellAt ur 0 = uid := by
      intro ur hur ar' har' hbeq
      obtain ⟨w, rfl⟩ := length_eq_one ur (hul ur hur)
      have heq := eq_of_beq hbeq
      simp only [List.cons_append, List.nil_append, List.cons.injEq] at heq
      exact heq.1
    rw [countP_merge urows (arows.filter (keepComponent 1)) uid hul _ hp1, hk]
    congr 1
    rw [List.countP_filter]
    refine List.countP_congr (fun ar' har' => ?_)
    obtain ⟨y0, y1, y2, y3, rfl⟩ := length_eq_four ar' (hal ar' har')
    have hkeep' : y1 ≠ Cell.str "System" ∧ y1 ≠ Cell.str "Folder" → keepComponent 1 [y0, y1, y2, y3] = true := by
      intro hy
      simp [keepComponent, cellAt, hy.1, hy.2]
    have hkeepx : x1 ≠ Cell.str "System" ∧ x1 ≠ Cell.str "Folder" := by
      simpa [keepComponent, cellAt, Bool.not_eq_true', Bool.or_eq_false_iff,
        beq_eq_false_iff_ne] using hkeep
    have hkp : y1 = x1 → keepComponent 1 [y0, y1, y2, y3] = true := by
      intro h1
      subst h1
      exact hkeep' hkeepx
    simp only [List.eraseIdx, List.cons_append, List.nil_append,
      Bool.and_eq_true, beq_iff_eq, List.cons.injEq, and_true, cellAt,
      List.getD_cons_zero]
    tauto
  · -- reshaped counts are k times the per-activity counts
    intro piv hpiv
    rw [reshape_data_eq] at hpiv
    cases hpr : parseRows 3 (urows.flatMap (fun ur =>
        (((arows.filter (keepComponent 1)).filter
            (fun ar => cellAt ar 0 == cellAt ur 0)).map
          (fun ar => ur ++ ar.eraseIdx 0)))) with
    | error e => rw [hpr] at hpiv; exact absurd hpiv (by simp)
    | ok rows1 =>
      rw [hpr] at hpiv
      simp only [Except.ok.injEq] at hpiv
      have hrows1 : rows1 = _ := parseRows_ok 3 _ rows1 hpr
      subst hrows1
      subst hpiv
      set M := urows.flatMap (fun ur =>
        (((arows.filter (keepComponent 1)).filter
            (fun ar => cellAt ar 0 == cellAt ur 0)).map
          (fun ar => ur ++ ar.eraseIdx 0))) with hM
      set ws := (M.map (parsedRow 3)).map
        (fun r => r ++ [Cell.nat (monthKey (cellAt r 3))]) with hws
      have hws' : ws = M.map (withMonthRow 3) := by
        rw [hws, List.map_map]; rfl
      set prs := sortLe pairLe ((ws.map (fun r => (cellAt r 0, cellAt r 4))).dedup)
        with hprs
      set cmps := sortLe Cell.le ((ws.map (fun r => cellAt r 1)).dedup) with hcmps
      have hpivrows : (pivotStage ws 0 1 4).rows
          = prs.map (fun p => [p.1, p.2] ++ cmps.map (fun cc =>
              Cell.nat (ws.countP (fun r =>
                cellAt r 0 == p.1 && cellAt r 4 == p.2 && cellAt r 1 == cc)))) := rfl
      intro r hr hruid j hj
      rw [hpivrows] at hr
      obtain ⟨p, hpmem, rfl⟩ := List.mem_map.mp hr
      obtain ⟨p1, p2⟩ := p
      have hp1 : uid = p1 := hruid.symm
      subst hp1
      have hjc : j < cmps.length := by
        simp only [pivotStage, List.length_append, List.length_map,
          List.length_cons, List.length_nil] at hj
        rw [← hcmps] at hj
        omega
      refine ⟨cmps.getD j default, ?_, ?_⟩
      · show ("User_ID" :: "Month" :: cmps.map Cell.toLabel).getD (j + 2) ""
            = (cmps.getD j default).toLabel
        simp only [List.getD_cons_succ]
        exact getD_map_lt Cell.toLabel cmps j "" default hjc
      · show (cmps.map (fun cc => Cell.nat (ws.countP (fun r =>
            cellAt r 0 == uid && cellAt r 4 == p2 && cellAt r 1 == cc)))).getD j default
            = _
        rw [getD_map_lt _ cmps j default default hjc]
        set cc := cmps.getD j default with hcc
        have hcount : ws.countP (fun w =>
              cellAt w 0 == uid && cellAt w 4 == p2 && cellAt w 1 == cc)
            = k * arows.countP (fun ar =>
                keepComponent 1 ar && (cellAt ar 0 == uid)
                && (Cell.nat (monthKey (cellAt ar 3)) == p2)
                && (cellAt ar 1 == cc)) := by
          rw [hws', List.countP_map]
          have hpB : ∀ ur ∈ urows, ∀ ar' ∈ arows.filter (keepComponent 1),
              ((fun w => cellAt w 0 == uid && cellAt w 4 == p2 && cellAt w 1 == cc)
                ∘ withMonthRow 3) (ur ++ ar'.eraseIdx 0) = true →
              cellAt ur 0 = uid := by
            intro ur hur ar' har' hx
            obtain ⟨w, rfl⟩ := length_eq_one ur (hul ur hur)
            have har'' : ar' ∈ arows := (List.mem_filter.mp har').1
            obtain ⟨y0, y1, y2, y3, rfl⟩ := length_eq_four ar' (hal ar' har'')
            simp only [Function.comp, List.eraseIdx, List.cons_append,
              List.nil_append, Bool.and_eq_true, beq_iff_eq] at hx
            have hw4 := (withMonthRow_four w y1 y2 y3).1
            rw [hw4] at hx
            exact hx.1.1
          rw [countP_merge urows (arows.filter (keepComponent 1)) uid hul _ hpB, hk]
          congr 1
          rw [List.countP_filter]
          refine List.countP_congr (fun ar' har' => ?_)
          obtain ⟨y0, y1, y2, y3, rfl⟩ := length_eq_four ar' (hal ar' har')
          have hw4 := withMonthRow_four uid y1 y2 y3
          simp only [Function.comp, List.eraseIdx, List.cons_append,
            List.nil_append, Bool.and_eq_true, beq_iff_eq, cellAt,
            List.getD_cons_succ, List.getD_cons_zero]
          rw [show (withMonthRow 3 [uid, y1, y2, y3]).getD 0 default = uid
              from hw4.1,
            show (withMonthRow 3 [uid, y1, y2, y3]).getD 1 default = y1
              from hw4.2.1,
            show (withMonthRow 3 [uid, y1, y2, y3]).getD 4 default
                = Cell.nat (monthKey y3) from hw4.2.2]
          tauto
        rw [hcount]
        rfl

theorem C10_witness :
    dupUserLog.cols = [anonCol]
    ∧ dupActivityLog.cols = [anonCol, "Component", "Action", "Date"]
    ∧ (∀ r ∈ dupUserLog.rows, r.length = 1)
    ∧ (∀ r ∈ dupActivityLog.rows, r.length = 4)
    ∧ dupUserLog.rows.countP (fun r => cellAt r 0 == Cell.nat 1) = 2
    ∧ clean_and_transform dupUserLog dupActivityLog sampleComponentCodes
        = .ok dupMerged
    ∧ multiplicitySpec dupActivityLog dupMerged (Cell.nat 1) 2 :=
  ⟨by decide, by decide, by decide, by decide, by decide, by decide,
    C10_user_multiplicity dupUserLog dupActivityLog sampleComponentCodes
      dupMerged (Cell.nat 1) 2 (by decide) (by decide) (by decide) (by decide)
      (by decide) (by decide)⟩

end App
